import Mathlib

/-!
Verification of the ilkapp mutation-reconciliation and media-attachment
pipeline against its specification.  The definitions below are shallow
embeddings of the TypeScript source: `src/screens/TaskDetail.tsx`
(task status/priority mutations, media signing, upload, deletion,
expense editing) and `src/screens/Tasks.tsx` (`ExpenseAddScreen`:
amount validation, expense-media upload loop).
-/

namespace IlkApp

/-- Task status values (TaskDetail.tsx:44). -/
inductive TaskStatus where
  | yapilacak
  | yapiliyor
  | tamamlandi
  | iptal
deriving DecidableEq, Repr

/-- Task priority values (TaskDetail.tsx:45). -/
inductive TaskPriority where
  | low
  | medium
  | high
deriving DecidableEq, Repr

/-- The Task row shape (TaskDetail.tsx:47-58). -/
structure Task where
  id : Nat
  project_id : Nat
  title : String
  description : Option String
  status : TaskStatus
  priority : TaskPriority
  due_date : Option String
  created_by : String
  created_at : String
  updated_at : String
deriving DecidableEq, Repr

/-- A toast notification as produced by Toast.show: the type
    ("error"/"success"), the title (text1) and the message (text2). -/
structure Toast where
  type : String
  text1 : String
  text2 : String
deriving DecidableEq, Repr

/-- A remote failure: supabase errors carry a human-readable message. -/
structure Failure where
  message : String
deriving DecidableEq, Repr

/-- Observable outcome of one optimistic mutation: the optimistic
    in-memory row shown while the call is in flight, the row after
    reconciliation, and the toasts emitted. -/
structure MutationResult where
  optimistic : Task
  final : Task
  toasts : List Toast
deriving DecidableEq, Repr

/-- Embeds `setStatus` (TaskDetail.tsx:367-397) for a single invocation:
    capture `prev := task.status`, optimistically set the new status, and
    reconcile with the remote result `res` (the value of
    `supabase.from('tasks').update(...).select().single()`): on error,
    `setTask({ ...task, status: prev })` and an error toast with the remote
    message; on success, replace the row by the server-returned row. -/
def setStatus (task : Task) (next : TaskStatus) (res : Except Failure Task) :
    MutationResult :=
  let prev := task.status
  let optimisticRow : Task := { task with status := next }
  match res with
  | Except.error e =>
      { optimistic := optimisticRow
        final := { task with status := prev }
        toasts := [⟨"error", "Hata", e.message⟩] }
  | Except.ok row =>
      { optimistic := optimisticRow
        final := row
        toasts := [⟨"success", "Güncellendi", "Durum güncellendi."⟩] }

/-- Embeds `updatePriority` (TaskDetail.tsx:399-430), identical in shape to
    `setStatus` but acting on the priority field. -/
def updatePriority (task : Task) (next : TaskPriority)
    (res : Except Failure Task) : MutationResult :=
  let prev := task.priority
  let optimisticRow : Task := { task with priority := next }
  match res with
  | Except.error e =>
      { optimistic := optimisticRow
        final := { task with priority := prev }
        toasts := [⟨"error", "Hata", e.message⟩] }
  | Except.ok row =>
      { optimistic := optimisticRow
        final := row
        toasts := [⟨"success", "Güncellendi", "Öncelik güncellendi."⟩] }

/-! ## Amount parsing (Tasks.tsx `ExpenseAddScreen`, TaskDetail expense edit) -/

/-- JS `String.replace(',', '.')` with a string pattern replaces only the
    first occurrence of the comma. -/
def replaceFirstComma : List Char → List Char
  | [] => []
  | c :: cs => if c = ',' then '.' :: cs else c :: replaceFirstComma cs

/-- Value of a digit string read left to right. -/
def digitsToNat (ds : List Char) : Nat :=
  ds.foldl (fun n c => n * 10 + (c.toNat - '0'.toNat)) 0

/-- Parse an unsigned JS decimal literal: integer digits with an optional
    fraction after a single dot; at least one digit overall.  Returns the
    exact rational value, or none for NaN. -/
def parsePos (cs : List Char) : Option ℚ :=
  let intPart := cs.takeWhile Char.isDigit
  let rest := cs.dropWhile Char.isDigit
  match rest with
  | [] => if intPart = [] then none else some (digitsToNat intPart : ℚ)
  | '.' :: frac =>
      if frac.all Char.isDigit ∧ (intPart ≠ [] ∨ frac ≠ []) then
        some ((digitsToNat intPart : ℚ) +
          (digitsToNat frac : ℚ) / ((10 : ℚ) ^ frac.length))
      else none
  | _ => none

/-- Embeds the JS `Number(...)` coercion on the decimal strings these
    screens feed it: optional sign, then a decimal literal; the empty
    string coerces to 0; anything else is NaN, modelled as none. -/
def jsNumber (s : String) : Option ℚ :=
  match s.data with
  | [] => some 0
  | '-' :: cs => (parsePos cs).map (fun q => -q)
  | '+' :: cs => parsePos cs
  | cs => parsePos cs

/-- Embeds `amountNum` (Tasks.tsx:733-736) and the amount parse of
    `saveEditExpense` (TaskDetail.tsx:666):
    `Number(text.replace(',', '.'))`; none models NaN. -/
def amountNum (amountText : String) : Option ℚ :=
  jsNumber (String.mk (replaceFirstComma amountText.data))

/-- Embeds `isAmountValid` (Tasks.tsx:738):
    `Number.isFinite(amountNum) && amountNum > 0`. -/
def isAmountValid (amountText : String) : Bool :=
  match amountNum amountText with
  | some q => decide (0 < q)
  | none => false

/-- JS `Math.round(x * 100) / 100` (Tasks.tsx:833, TaskDetail.tsx:671):
    `Math.round` is floor of `x + 1/2`. -/
def round2 (q : ℚ) : ℚ :=
  ((Int.floor (q * 100 + 1 / 2) : ℤ) : ℚ) / 100

/-- Outcome of a save attempt: whether any remote call was issued, the
    amount sent with the remote write (if one happened), and the toasts. -/
structure SaveOutcome where
  remoteCalled : Bool
  savedAmount : Option ℚ
  toasts : List Toast
deriving DecidableEq, Repr

/-- Embeds the amount handling of `onSave` (Tasks.tsx:792-802, 827-840):
    an invalid amount (non-finite or not strictly positive) returns with an
    error toast before any remote call; a valid amount proceeds to the
    expenses insert with the amount rounded to two decimals. -/
def onSaveExpense (amountText : String) : SaveOutcome :=
  if isAmountValid amountText = false then
    { remoteCalled := false
      savedAmount := none
      toasts := [⟨"error", "Tutar gerekli", "Lütfen geçerli bir tutar girin."⟩] }
  else
    match amountNum amountText with
    | some a =>
        { remoteCalled := true, savedAmount := some (round2 a), toasts := [] }
    | none =>
        { remoteCalled := false, savedAmount := none, toasts := [] }

/-- Embeds the amount handling of `saveEditExpense` (TaskDetail.tsx:663-678):
    the only local check is `Number.isFinite` on the comma-normalized parse
    (a NaN throws before the remote call); any finite amount — including
    zero and negatives — is sent to the expenses update rounded to two
    decimals. -/
def saveEditExpense (amountText : String) : SaveOutcome :=
  match amountNum amountText with
  | none =>
      { remoteCalled := false
        savedAmount := none
        toasts := [⟨"error", "Hata", "Tutar hatalı."⟩] }
  | some a =>
      { remoteCalled := true, savedAmount := some (round2 a), toasts := [] }

/-! ## Interleaving of two status mutations (TaskDetail.tsx:367-397)

`setStatus` runs on the single JS thread: the snapshot capture, the
optimistic `setTask` and the issuing of the awaited remote update form one
synchronous segment; the function then suspends until the response
arrives, and reconciliation is a second synchronous segment.  Nothing in
the code makes a second `setStatus` call wait for the first to reconcile,
so the scheduler below lets the environment interleave the segments of two
invocations arbitrarily, subject only to each invocation issuing before it
reconciles and to the submission order (m1 is tapped before m2). -/

/-- Remote-call events of the two mutations: `issue i` is mutation i's
    update call being issued, `reconcile i` its terminal reconciliation. -/
inductive Ev where
  | issue : Nat → Ev
  | reconcile : Nat → Ev
deriving DecidableEq, Repr

/-- Progress of one `setStatus` invocation: not yet run, in flight holding
    its rollback snapshot (the status captured at submission), or
    reconciled. -/
inductive Phase where
  | pending : Phase
  | inflight : TaskStatus → Phase
  | done : Phase
deriving DecidableEq, Repr

/-- Scheduler state for two `setStatus` invocations on the same task:
    the in-memory status, each mutation's phase, and the event trace. -/
structure SchedState where
  status : TaskStatus
  m1 : Phase
  m2 : Phase
  trace : List Ev
deriving DecidableEq, Repr

/-- Atomic scheduler actions: submit mutation i with target value v
    (snapshot capture + optimistic set + remote call issued, one
    synchronous segment), or deliver mutation i's remote result (failure
    restores the snapshot, success installs the server row's status). -/
inductive Act where
  | submit1 : TaskStatus → Act
  | submit2 : TaskStatus → Act
  | failure1 : Act
  | failure2 : Act
  | confirm1 : TaskStatus → Act
  | confirm2 : TaskStatus → Act
deriving DecidableEq, Repr

/-- One scheduler step; none when the action is not enabled.  `submit2`
    additionally requires mutation 1 to have been submitted already
    (submission order), but — exactly as in the source, which has no
    per-entity queue — no reconcile is ever a precondition of an issue. -/
def stepA (s : SchedState) : Act → Option SchedState
  | Act.submit1 v =>
      match s.m1 with
      | Phase.pending =>
          some { status := v
                 m1 := Phase.inflight s.status
                 m2 := s.m2
                 trace := s.trace ++ [Ev.issue 1] }
      | _ => none
  | Act.submit2 v =>
      match s.m1, s.m2 with
      | Phase.pending, _ => none
      | _, Phase.pending =>
          some { status := v
                 m1 := s.m1
                 m2 := Phase.inflight s.status
                 trace := s.trace ++ [Ev.issue 2] }
      | _, _ => none
  | Act.failure1 =>
      match s.m1 with
      | Phase.inflight snap =>
          some { s with
                  status := snap
                  m1 := Phase.done
                  trace := s.trace ++ [Ev.reconcile 1] }
      | _ => none
  | Act.failure2 =>
      match s.m2 with
      | Phase.inflight snap =>
          some { s with
                  status := snap
                  m2 := Phase.done
                  trace := s.trace ++ [Ev.reconcile 2] }
      | _ => none
  | Act.confirm1 server =>
      match s.m1 with
      | Phase.inflight _ =>
          some { s with
                  status := server
                  m1 := Phase.done
                  trace := s.trace ++ [Ev.reconcile 1] }
      | _ => none
  | Act.confirm2 server =>
      match s.m2 with
      | Phase.inflight _ =>
          some { s with
                  status := server
                  m2 := Phase.done
                  trace := s.trace ++ [Ev.reconcile 2] }
      | _ => none

/-- Run a schedule; none if any action was not enabled. -/
def runSched (s : SchedState) : List Act → Option SchedState
  | [] => some s
  | a :: acts =>
      match stepA s a with
      | some s2 => runSched s2 acts
      | none => none

/-- Initial state: status v, neither mutation submitted. -/
def initSched (v : TaskStatus) : SchedState :=
  { status := v, m1 := Phase.pending, m2 := Phase.pending, trace := [] }

/-- Index of the first occurrence of an event in a trace. -/
def idxOf (tr : List Ev) (e : Ev) : Option Nat :=
  tr.findIdx? (fun x => x == e)

/-- The serialization property claimed by the spec: if mutation 2's remote
    call is issued, mutation 1 has already been reconciled. -/
def serializedTrace (tr : List Ev) : Bool :=
  match idxOf tr (Ev.issue 2), idxOf tr (Ev.reconcile 1) with
  | some j, some i => decide (i < j)
  | some _, none => false
  | none, _ => true

/-- The event traces the scheduler can exhibit at a given pair of phases:
    an exact characterization of the interleavings the code admits.  Note
    that `(Phase.done, Phase.inflight _)` admits both the serialized trace
    and the trace in which mutation 2 issued while mutation 1 was still in
    flight — the source has no queue ruling the latter out. -/
def allowedTraces : Phase → Phase → List (List Ev)
  | Phase.pending, Phase.pending => [[]]
  | Phase.pending, _ => []
  | Phase.inflight _, Phase.pending => [[Ev.issue 1]]
  | Phase.inflight _, Phase.inflight _ => [[Ev.issue 1, Ev.issue 2]]
  | Phase.inflight _, Phase.done => [[Ev.issue 1, Ev.issue 2, Ev.reconcile 2]]
  | Phase.done, Phase.pending => [[Ev.issue 1, Ev.reconcile 1]]
  | Phase.done, Phase.inflight _ =>
      [[Ev.issue 1, Ev.reconcile 1, Ev.issue 2],
       [Ev.issue 1, Ev.issue 2, Ev.reconcile 1]]
  | Phase.done, Phase.done =>
      [[Ev.issue 1, Ev.reconcile 1, Ev.issue 2, Ev.reconcile 2],
       [Ev.issue 1, Ev.issue 2, Ev.reconcile 1, Ev.reconcile 2],
       [Ev.issue 1, Ev.issue 2, Ev.reconcile 2, Ev.reconcile 1]]

/-- The scheduler invariant: the trace is one of the traces allowed at the
    current pair of phases. -/
def traceInv (s : SchedState) : Bool :=
  decide (s.trace ∈ allowedTraces s.m1 s.m2)

/-! ## Media rows, signing, upload and deletion (TaskDetail.tsx) -/

/-- The task_media row shape (TaskDetail.tsx:60-68) with its transient
    signed URL. -/
structure MediaRow where
  id : Nat
  task_id : Nat
  storage_path : String
  url : String
  created_by : String
  created_at : String
  signedUrl : Option String
deriving DecidableEq, Repr

/-- Embeds `makeSigned` (TaskDetail.tsx:282-291): for each row, in order,
    one `createSignedUrl(row.storage_path, 3600)` call; the storage
    collaborator is the function `sign`.  Returns the decorated rows and
    the list of sign calls issued as (path, ttl) pairs. -/
def makeSigned (sign : String → Option String) :
    List MediaRow → List MediaRow × List (String × Nat)
  | [] => ([], [])
  | row :: rest =>
      ({ row with signedUrl := sign row.storage_path }
          :: (makeSigned sign rest).1,
       (row.storage_path, 3600) :: (makeSigned sign rest).2)

/-- An attachment record row: the owning entity id and the storage path it
    references (columns task_id/expense_id and storage_path). -/
structure MediaRecord where
  owner_id : Nat
  storage_path : String
deriving DecidableEq, Repr

/-- The remote world an upload mutates: the set of object paths present in
    the storage bucket and the attachment record rows in the table. -/
structure MediaWorld where
  storage : List String
  records : List MediaRecord
deriving DecidableEq, Repr

/-- The success test of `FileSystem.uploadAsync`'s response
    (TaskDetail.tsx:554, Tasks.tsx:875): status 200 or 201. -/
def uploadOk (status : Nat) : Bool :=
  status == 200 || status == 201

/-- Embeds the upload and record phases of `processAndUpload`
    (TaskDetail.tsx:538-581): the POST stores the object exactly when it
    succeeds (status 200/201); on a non-200/201 status the function
    returns with an error toast and never reaches the task_media insert;
    the insert itself may fail (insertOk false), leaving the object in
    storage unreferenced. -/
def processAndUpload (w : MediaWorld) (taskId : Nat) (path : String)
    (uploadStatus : Nat) (insertOk : Bool) : MediaWorld × List Toast :=
  if uploadOk uploadStatus = false then
    (w, [⟨"error", "Yükleme hatası", "Durum: " ++ toString uploadStatus⟩])
  else if insertOk then
    ({ storage := w.storage ++ [path]
       records := w.records ++ [⟨taskId, path⟩] },
     [⟨"success", "Yüklendi", "Fotoğraf eklendi."⟩])
  else
    ({ w with storage := w.storage ++ [path] },
     [⟨"error", "Kayıt hatası", "insert failed"⟩])

/-- Embeds the photo-upload loop of `onSave` (Tasks.tsx:846-887): photos
    are processed in order; a non-200/201 upload or a failed expense_media
    insert throws, aborting the remaining photos.  Each photo carries its
    derived path, the upload status the environment returns for it and
    whether its insert succeeds.  Returns the final world and whether the
    loop completed. -/
def uploadPhotosLoop (eid : Nat) :
    MediaWorld → List (String × Nat × Bool) → MediaWorld × Bool
  | w, [] => (w, true)
  | w, (path, status, insertOk) :: rest =>
      if uploadOk status = false then (w, false)
      else if insertOk then
        uploadPhotosLoop eid
          { storage := w.storage ++ [path]
            records := w.records ++ [⟨eid, path⟩] } rest
      else ({ w with storage := w.storage ++ [path] }, false)

/-- Observable outcome of `deleteMedia`: the in-memory list right after the
    optimistic removal, the final in-memory list, the storage remove calls
    (each a list of paths), the ids passed to the task_media delete, and
    the toasts. -/
structure DeleteOutcome where
  removed : List MediaRow
  media : List MediaRow
  storageCalls : List (List String)
  recordDeleteCalls : List Nat
  toasts : List Toast
deriving DecidableEq, Repr

/-- Embeds `deleteMedia` (TaskDetail.tsx:607-647): optimistically filter
    the row out of the list; call `storage.remove([row.storage_path])`; on
    storage failure re-insert the row at the head, toast the error and
    stop (no record delete); otherwise delete the record; if that fails,
    toast the error and re-fetch the list via `loadMedia()` — `reload` is
    the row set that fetch returns (the failed delete leaves the row in
    the table); on full success the filtered list stands. -/
def deleteMedia (media : List MediaRow) (row : MediaRow)
    (storageOk : Bool) (sMsg : String) (recordOk : Bool) (dMsg : String)
    (reload : List MediaRow) : DeleteOutcome :=
  if storageOk = false then
    { removed := media.filter (fun m => m.id != row.id)
      media := row :: media.filter (fun m => m.id != row.id)
      storageCalls := [[row.storage_path]]
      recordDeleteCalls := []
      toasts := [⟨"error", "Silme hatası", sMsg⟩] }
  else if recordOk = false then
    { removed := media.filter (fun m => m.id != row.id)
      media := reload
      storageCalls := [[row.storage_path]]
      recordDeleteCalls := [row.id]
      toasts := [⟨"error", "Kayıt silinemedi", dMsg⟩] }
  else
    { removed := media.filter (fun m => m.id != row.id)
      media := media.filter (fun m => m.id != row.id)
      storageCalls := [[row.storage_path]]
      recordDeleteCalls := [row.id]
      toasts := [⟨"success", "Silindi", "Fotoğraf kaldırıldı."⟩] }

/-! ## Image transform and storage-path derivation -/

/-- Embeds the resize action of the `manipulateAsync` calls
    (TaskDetail.tsx:516-520, Tasks.tsx:851-855): the single action is
    `resize(width := min(w, 1600))` (w defaulting to 1600 when the source
    width is unknown); expo-image-manipulator scales the height
    proportionally when only a width is given.  Dimensions are naturals,
    the scaled height rounded down. -/
def resizeDims (w h : Nat) : Nat × Nat :=
  (min w 1600, h * min w 1600 / w)

/-- The longer edge of a width × height pair. -/
def longerEdge (d : Nat × Nat) : Nat := max d.1 d.2

/-- The fixed re-encode quality of both `manipulateAsync` calls
    (`compress: 0.8`, JPEG). -/
def manipCompress : ℚ := 8 / 10

/-- One upload occurrence: the `Date.now()` value and the
    `Math.random().toString(36).slice(2, 8)` token drawn for it. -/
structure UploadEvent where
  now : Nat
  token : String
deriving DecidableEq, Repr

/-- The task-media filename (TaskDetail.tsx:538): the timestamp alone. -/
def taskFilename (now : Nat) : String :=
  toString now ++ ".jpg"

/-- The task-media storage path (TaskDetail.tsx:539):
    `{uid}/{task.id}/{filename}`. -/
def taskStoragePath (uid : String) (taskId : Nat) (now : Nat) : String :=
  uid ++ "/" ++ toString taskId ++ "/" ++ taskFilename now

/-- The expense-media filename (Tasks.tsx:857-859): timestamp, underscore,
    random token. -/
def expenseFilename (now : Nat) (token : String) : String :=
  toString now ++ "_" ++ token ++ ".jpg"

/-- The expense-media storage path (Tasks.tsx:860):
    `{uid}/{expenseId}/{filename}`. -/
def expenseStoragePath (uid : String) (expenseId : Nat) (now : Nat)
    (token : String) : String :=
  uid ++ "/" ++ toString expenseId ++ "/" ++ expenseFilename now token

/-- The path a task-media upload event derives: the random draw of the
    event is unused, the filename is built from the timestamp alone. -/
def taskPathOfEvent (uid : String) (taskId : Nat) (e : UploadEvent) : String :=
  taskStoragePath uid taskId e.now

/-- The path an expense-media upload event derives. -/
def expensePathOfEvent (uid : String) (expenseId : Nat)
    (e : UploadEvent) : String :=
  expenseStoragePath uid expenseId e.now e.token

/-! ## Sample data for concrete executions -/

/-- A sample task_media row as recorded by an upload. -/
def rowA : MediaRow :=
  { id := 5
    task_id := 7
    storage_path := "u1/7/1700000000000.jpg"
    url := "u1/7/1700000000000.jpg"
    created_by := "u1"
    created_at := "2024-01-01T00:00:00Z"
    signedUrl := none }

/-- The same row as `loadMedia` re-fetches and re-signs it after a failed
    record delete. -/
def rowARefetched : MediaRow :=
  { rowA with
     signedUrl := some "https://storage.example/sign/u1/7/1700000000000.jpg" }

/-- A sample storage sign collaborator. -/
def signSample : String → Option String :=
  fun p => some ("https://storage.example/sign/" ++ p)

/-! ## List helper lemmas -/

/-- Re-inserting a row at the head of the list filtered by its id yields a
    permutation of the original list, provided the row was present and ids
    are unique. -/
theorem cons_filter_ne_perm (row : MediaRow) :
    ∀ l : List MediaRow, row ∈ l → (l.map (fun m => m.id)).Nodup →
      List.Perm (row :: l.filter (fun m => m.id != row.id)) l := by
  intro l
  induction l with
  | nil => intro h _; exact absurd h (List.not_mem_nil row)
  | cons a t ih =>
      intro hmem hnd
      simp only [List.map_cons, List.nodup_cons] at hnd
      rcases List.mem_cons.mp hmem with rfl | hmt
      · have hfilter : t.filter (fun m => m.id != row.id) = t := by
          apply List.filter_eq_self.mpr
          intro m hm
          simp only [bne_iff_ne, ne_eq]
          intro hid
          exact hnd.1 (hid ▸ List.mem_map_of_mem (fun m => m.id) hm)
        simp only [List.filter_cons, bne_self_eq_false, if_neg]
        rw [if_neg (by simp), hfilter]
      · have hane : a.id ≠ row.id := by
          intro hid
          exact hnd.1 (hid ▸ List.mem_map_of_mem (fun m => m.id) hmt)
        rw [List.filter_cons, if_pos (by simpa using hane)]
        exact (List.Perm.swap a row _).trans ((ih hmt hnd.2).cons a)

/-- The record-implies-object invariant is preserved by the expense-media
    upload loop. -/
theorem uploadPhotosLoop_record_inv (eid : Nat) :
    ∀ (photos : List (String × Nat × Bool)) (w : MediaWorld),
      (∀ r ∈ w.records, r.storage_path ∈ w.storage) →
      ∀ r ∈ (uploadPhotosLoop eid w photos).1.records,
        r.storage_path ∈ (uploadPhotosLoop eid w photos).1.storage := by
  intro photos
  induction photos with
  | nil => intro w hw; simpa [uploadPhotosLoop] using hw
  | cons p rest ih =>
      intro w hw
      obtain ⟨path, status, insertOk⟩ := p
      by_cases hst : uploadOk status = false
      · simp only [uploadPhotosLoop, if_pos hst]
        exact hw
      · cases insertOk with
        | true =>
            simp only [uploadPhotosLoop, if_neg hst, if_pos rfl]
            apply ih
            intro r hr
            simp only [List.mem_append] at hr ⊢
            rcases hr with hr | hr
            · exact Or.inl (hw r hr)
            · simp only [List.mem_singleton] at hr
              subst hr
              simp
        | false =>
            simp only [uploadPhotosLoop, if_neg hst]
            simp only [Bool.false_eq_true, if_false]
            intro r hr
            simp only [List.mem_append]
            exact Or.inl (hw r hr)

/-! ## Evaluation lemmas for concrete amounts -/

theorem amountNum_comma_eval : amountNum "12,50" = some (1250 / 100 : ℚ) := by
  have h : replaceFirstComma ("12,50").data = ['1', '2', '.', '5', '0'] := by
    decide
  show jsNumber (String.mk (replaceFirstComma ("12,50").data)) = _
  rw [h]
  show parsePos ['1', '2', '.', '5', '0'] = _
  have ht : List.takeWhile Char.isDigit ['1', '2', '.', '5', '0'] = ['1', '2'] := by
    decide
  have hd : List.dropWhile Char.isDigit ['1', '2', '.', '5', '0'] = ['.', '5', '0'] := by
    decide
  have h1 : digitsToNat ['1', '2'] = 12 := by decide
  have h2 : digitsToNat ['5', '0'] = 50 := by decide
  simp only [parsePos, ht, hd, h1, h2]
  rw [if_pos]
  · norm_num
  · exact ⟨by decide, Or.inl (by decide)⟩

theorem amountNum_zero_eval : amountNum "0" = some 0 := by
  show jsNumber (String.mk (replaceFirstComma ("0").data)) = _
  have h : replaceFirstComma ("0").data = ['0'] := by decide
  rw [h]
  show parsePos ['0'] = _
  have ht : List.takeWhile Char.isDigit ['0'] = ['0'] := by decide
  have hd : List.dropWhile Char.isDigit ['0'] = [] := by decide
  have h1 : digitsToNat ['0'] = 0 := by decide
  simp only [parsePos, ht, hd, h1]
  norm_num

theorem amountNum_negfive_eval : amountNum "-5" = some (-5 : ℚ) := by
  show jsNumber (String.mk (replaceFirstComma ("-5").data)) = _
  have h : replaceFirstComma ("-5").data = ['-', '5'] := by decide
  rw [h]
  show (parsePos ['5']).map (fun q => -q) = _
  have ht : List.takeWhile Char.isDigit ['5'] = ['5'] := by decide
  have hd : List.dropWhile Char.isDigit ['5'] = [] := by decide
  have h1 : digitsToNat ['5'] = 5 := by decide
  simp only [parsePos, ht, hd, h1]
  norm_num

theorem amountNum_nonnumeric_eval : amountNum "abc" = none := by decide

theorem round2_half_eval : round2 (1250 / 100 : ℚ) = 1250 / 100 := by
  unfold round2
  rw [show Int.floor ((1250 / 100 : ℚ) * 100 + 1 / 2) = 1250 from
    Int.floor_eq_iff.mpr (by norm_num)]
  norm_num

theorem round2_zero_eval : round2 0 = 0 := by
  unfold round2
  rw [show Int.floor ((0 : ℚ) * 100 + 1 / 2) = 0 from
    Int.floor_eq_iff.mpr (by norm_num)]
  norm_num

theorem round2_negfive_eval : round2 (-5 : ℚ) = -5 := by
  unfold round2
  rw [show Int.floor ((-5 : ℚ) * 100 + 1 / 2) = -500 from
    Int.floor_eq_iff.mpr (by norm_num)]
  norm_num

theorem isAmountValid_comma_eval : isAmountValid "12,50" = true := by
  simp only [isAmountValid, amountNum_comma_eval]
  norm_num

theorem isAmountValid_zero_eval : isAmountValid "0" = false := by
  simp only [isAmountValid, amountNum_zero_eval]
  norm_num

theorem isAmountValid_negfive_eval : isAmountValid "-5" = false := by
  simp only [isAmountValid, amountNum_negfive_eval]
  norm_num

theorem isAmountValid_nonnumeric_eval : isAmountValid "abc" = false := by
  simp only [isAmountValid, amountNum_nonnumeric_eval]

/-! ## Scheduler invariant -/

theorem stepA_traceInv (a : Act) (s s2 : SchedState)
    (h : stepA s a = some s2) (hs : traceInv s = true) : traceInv s2 = true := by
  obtain ⟨st, m1, m2, tr⟩ := s
  cases a with
  | submit1 v =>
      cases m1 with
      | pending =>
          cases m2 with
          | pending =>
              simp only [traceInv, decide_eq_true_eq, allowedTraces] at hs
              obtain rfl := (Option.some.inj h).symm
              simp only [List.mem_singleton] at hs
              subst hs; rfl
          | inflight sq =>
              simp only [traceInv, decide_eq_true_eq, allowedTraces] at hs
              exact absurd hs (by simp)
          | done =>
              simp only [traceInv, decide_eq_true_eq, allowedTraces] at hs
              exact absurd hs (by simp)
      | inflight snap => exact Option.noConfusion h
      | done => exact Option.noConfusion h
  | submit2 v =>
      cases m1 with
      | pending => cases m2 <;> exact Option.noConfusion h
      | inflight snap =>
          cases m2 with
          | pending =>
              simp only [traceInv, decide_eq_true_eq, allowedTraces] at hs
              obtain rfl := (Option.some.inj h).symm
              simp only [List.mem_singleton] at hs
              subst hs; rfl
          | inflight sq => exact Option.noConfusion h
          | done => exact Option.noConfusion h
      | done =>
          cases m2 with
          | pending =>
              simp only [traceInv, decide_eq_true_eq, allowedTraces] at hs
              obtain rfl := (Option.some.inj h).symm
              simp only [List.mem_singleton] at hs
              subst hs; rfl
          | inflight sq => exact Option.noConfusion h
          | done => exact Option.noConfusion h
  | failure1 =>
      cases m1 with
      | pending => exact Option.noConfusion h
      | inflight snap =>
          cases m2 with
          | pending =>
              simp only [traceInv, decide_eq_true_eq, allowedTraces] at hs
              obtain rfl := (Option.some.inj h).symm
              simp only [List.mem_singleton] at hs
              subst hs; rfl
          | inflight sq =>
              simp only [traceInv, decide_eq_true_eq, allowedTraces] at hs
              obtain rfl := (Option.some.inj h).symm
              simp only [List.mem_singleton] at hs
              subst hs; rfl
          | done =>
              simp only [traceInv, decide_eq_true_eq, allowedTraces] at hs
              obtain rfl := (Option.some.inj h).symm
              simp only [List.mem_singleton] at hs
              subst hs; rfl
      | done => exact Option.noConfusion h
  | failure2 =>
      cases m2 with
      | pending => exact Option.noConfusion h
      | inflight sq =>
          cases m1 with
          | pending =>
              simp only [traceInv, decide_eq_true_eq, allowedTraces] at hs
              exact absurd hs (by simp)
          | inflight sp =>
              simp only [traceInv, decide_eq_true_eq, allowedTraces] at hs
              obtain rfl := (Option.some.inj h).symm
              simp only [List.mem_singleton] at hs
              subst hs; rfl
          | done =>
              simp only [traceInv, decide_eq_true_eq, allowedTraces] at hs
              obtain rfl := (Option.some.inj h).symm
              simp only [List.mem_cons, List.mem_singleton,
                List.not_mem_nil, or_false] at hs
              rcases hs with rfl | rfl <;> rfl
      | done => exact Option.noConfusion h
  | confirm1 v =>
      cases m1 with
      | pending => exact Option.noConfusion h
      | inflight snap =>
          cases m2 with
          | pending =>
              simp only [traceInv, decide_eq_true_eq, allowedTraces] at hs
              obtain rfl := (Option.some.inj h).symm
              simp only [List.mem_singleton] at hs
              subst hs; rfl
          | inflight sq =>
              simp only [traceInv, decide_eq_true_eq, allowedTraces] at hs
              obtain rfl := (Option.some.inj h).symm
              simp only [List.mem_singleton] at hs
              subst hs; rfl
          | done =>
              simp only [traceInv, decide_eq_true_eq, allowedTraces] at hs
              obtain rfl := (Option.some.inj h).symm
              simp only [List.mem_singleton] at hs
              subst hs; rfl
      | done => exact Option.noConfusion h
  | confirm2 v =>
      cases m2 with
      | pending => exact Option.noConfusion h
      | inflight sq =>
          cases m1 with
          | pending =>
              simp only [traceInv, decide_eq_true_eq, allowedTraces] at hs
              exact absurd hs (by simp)
          | inflight sp =>
              simp only [traceInv, decide_eq_true_eq, allowedTraces] at hs
              obtain rfl := (Option.some.inj h).symm
              simp only [List.mem_singleton] at hs
              subst hs; rfl
          | done =>
              simp only [traceInv, decide_eq_true_eq, allowedTraces] at hs
              obtain rfl := (Option.some.inj h).symm
              simp only [List.mem_cons, List.mem_singleton,
                List.not_mem_nil, or_false] at hs
              rcases hs with rfl | rfl <;> rfl
      | done => exact Option.noConfusion h

theorem runSched_traceInv (acts : List Act) :
    ∀ s s2 : SchedState, runSched s acts = some s2 →
      traceInv s = true → traceInv s2 = true := by
  induction acts with
  | nil =>
      intro s s2 h hs
      obtain rfl := Option.some.inj h
      exact hs
  | cons a rest ih =>
      intro s s2 h hs
      cases hstep : stepA s a with
      | none =>
          simp only [runSched, hstep] at h
          exact Option.noConfusion h
      | some s1 =>
          simp only [runSched, hstep] at h
          exact ih s1 s2 h (stepA_traceInv a s s1 hstep hs)

/-! ## Claim theorems -/

/-- C1 counterexample: it is not the case that every execution of two
    in-order `setStatus` mutations on the same task reconciles the first
    before issuing the second's remote call: the schedule that submits
    both mutations before either response arrives is a valid execution of
    the code and its trace has `issue 2` strictly before `reconcile 1`. -/
theorem status_mutation_serialization_refuted :
    ¬ ∀ (acts : List Act) (s : SchedState),
        runSched (initSched TaskStatus.yapilacak) acts = some s →
        serializedTrace s.trace = true := by
  intro hclaim
  have h := hclaim
    [Act.submit1 TaskStatus.yapiliyor, Act.submit2 TaskStatus.tamamlandi,
      Act.failure1, Act.failure2]
    ⟨TaskStatus.yapiliyor, Phase.done, Phase.done,
      [Ev.issue 1, Ev.issue 2, Ev.reconcile 1, Ev.reconcile 2]⟩
    (by decide)
  exact absurd h (by decide)

/-- C1 amended: the code has no per-entity queue.  Every execution's trace
    is one of the interleavings in `allowedTraces` — so each mutation
    issues before it reconciles and mutation 1 issues before mutation 2 —
    but both reconciliation orders are reachable: there is an execution in
    which mutation 2's remote call is issued before mutation 1 reconciles
    (and when both then fail, the rollbacks leave mutation 1's optimistic
    value, not the original status), as well as the serialized execution. -/
theorem status_mutation_interleavings_exact :
    (∀ (v : TaskStatus) (acts : List Act) (s : SchedState),
        runSched (initSched v) acts = some s →
        s.trace ∈ allowedTraces s.m1 s.m2) ∧
    (∃ (acts : List Act) (s : SchedState),
        runSched (initSched TaskStatus.yapilacak) acts = some s ∧
        s.trace = [Ev.issue 1, Ev.issue 2, Ev.reconcile 1, Ev.reconcile 2] ∧
        serializedTrace s.trace = false ∧
        s.status = TaskStatus.yapiliyor) ∧
    (∃ (acts : List Act) (s : SchedState),
        runSched (initSched TaskStatus.yapilacak) acts = some s ∧
        s.trace = [Ev.issue 1, Ev.reconcile 1, Ev.issue 2, Ev.reconcile 2] ∧
        serializedTrace s.trace = true ∧
        s.status = TaskStatus.yapilacak) := by
  refine ⟨?_, ?_, ?_⟩
  · intro v acts s h
    have hinv : traceInv s = true :=
      runSched_traceInv acts (initSched v) s h (by rfl)
    exact of_decide_eq_true hinv
  · exact ⟨[Act.submit1 TaskStatus.yapiliyor,
      Act.submit2 TaskStatus.tamamlandi, Act.failure1, Act.failure2],
      ⟨TaskStatus.yapiliyor, Phase.done, Phase.done,
        [Ev.issue 1, Ev.issue 2, Ev.reconcile 1, Ev.reconcile 2]⟩,
      by decide, rfl, by decide, rfl⟩
  · exact ⟨[Act.submit1 TaskStatus.yapiliyor, Act.failure1,
      Act.submit2 TaskStatus.tamamlandi, Act.failure2],
      ⟨TaskStatus.yapilacak, Phase.done, Phase.done,
        [Ev.issue 1, Ev.reconcile 1, Ev.issue 2, Ev.reconcile 2]⟩,
      by decide, rfl, by decide, rfl⟩

/-- C1 amended, witness: the characterization applied to a concrete
    two-step schedule that leaves mutation 1 in flight and mutation 2
    issued. -/
theorem status_mutation_interleavings_exact_witness :
    (⟨TaskStatus.tamamlandi, Phase.inflight TaskStatus.yapilacak,
        Phase.inflight TaskStatus.yapiliyor,
        [Ev.issue 1, Ev.issue 2]⟩ : SchedState).trace ∈
      allowedTraces (Phase.inflight TaskStatus.yapilacak)
        (Phase.inflight TaskStatus.yapiliyor) :=
  status_mutation_interleavings_exact.1 TaskStatus.yapilacak
    [Act.submit1 TaskStatus.yapiliyor, Act.submit2 TaskStatus.tamamlandi]
    ⟨TaskStatus.tamamlandi, Phase.inflight TaskStatus.yapilacak,
      Phase.inflight TaskStatus.yapiliyor, [Ev.issue 1, Ev.issue 2]⟩
    (by decide)

/-- C2: if the remote update of `setStatus` (or `updatePriority`) fails,
    the reconciled in-memory task equals the task exactly as it was before
    the optimistic change (the rollback restores the snapshot), the
    optimistic intermediate state carried the new value, and an error
    toast surfacing the remote failure message is emitted. -/
theorem setStatus_failure_rolls_back_exactly (task : Task)
    (nextS : TaskStatus) (nextP : TaskPriority) (e : Failure) :
    ((setStatus task nextS (Except.error e)).final = task ∧
      (setStatus task nextS (Except.error e)).optimistic.status = nextS ∧
      (setStatus task nextS (Except.error e)).toasts
        = [⟨"error", "Hata", e.message⟩]) ∧
    ((updatePriority task nextP (Except.error e)).final = task ∧
      (updatePriority task nextP (Except.error e)).optimistic.priority = nextP ∧
      (updatePriority task nextP (Except.error e)).toasts
        = [⟨"error", "Hata", e.message⟩]) :=
  ⟨⟨rfl, rfl, rfl⟩, ⟨rfl, rfl, rfl⟩⟩

/-- C9: creating an expense parses a comma-decimal amount "12,50" to the
    exact value 12.50 and sends it (rounded to two decimals) to the remote
    insert, while the amounts "0", "-5" and a non-numeric amount are
    rejected with a validation toast before any remote call, leaving state
    untouched. -/
theorem expense_create_amount_validation :
    amountNum "12,50" = some (1250 / 100 : ℚ) ∧
    (onSaveExpense "12,50").remoteCalled = true ∧
    (onSaveExpense "12,50").savedAmount = some (1250 / 100 : ℚ) ∧
    (onSaveExpense "0").remoteCalled = false ∧
    (onSaveExpense "0").savedAmount = none ∧
    (onSaveExpense "0").toasts
      = [⟨"error", "Tutar gerekli", "Lütfen geçerli bir tutar girin."⟩] ∧
    (onSaveExpense "-5").remoteCalled = false ∧
    (onSaveExpense "-5").savedAmount = none ∧
    (onSaveExpense "abc").remoteCalled = false ∧
    (onSaveExpense "abc").savedAmount = none := by
  have h50 : onSaveExpense "12,50"
      = { remoteCalled := true, savedAmount := some (1250 / 100 : ℚ),
          toasts := [] } := by
    simp only [onSaveExpense, isAmountValid_comma_eval, amountNum_comma_eval]
    simp [round2_half_eval]
  have h0 : (onSaveExpense "0")
      = { remoteCalled := false, savedAmount := none,
          toasts := [⟨"error", "Tutar gerekli",
            "Lütfen geçerli bir tutar girin."⟩] } := by
    simp [onSaveExpense, isAmountValid_zero_eval]
  have h5 : (onSaveExpense "-5")
      = { remoteCalled := false, savedAmount := none,
          toasts := [⟨"error", "Tutar gerekli",
            "Lütfen geçerli bir tutar girin."⟩] } := by
    simp [onSaveExpense, isAmountValid_negfive_eval]
  have habc : (onSaveExpense "abc")
      = { remoteCalled := false, savedAmount := none,
          toasts := [⟨"error", "Tutar gerekli",
            "Lütfen geçerli bir tutar girin."⟩] } := by
    simp [onSaveExpense, isAmountValid_nonnumeric_eval]
  refine ⟨amountNum_comma_eval, ?_, ?_, ?_, ?_, ?_, ?_, ?_, ?_, ?_⟩ <;>
    simp [h50, h0, h5, habc]

/-- C10: the expense-edit path checks only that the comma-normalized parse
    is a finite number: any parsed amount — including zero and negative
    values — is sent to the remote update rounded to two decimals, a
    non-parsing amount throws before the remote call, and the strict
    positivity gate of expense creation is absent on edit. -/
theorem expense_edit_amount_no_positivity_gate :
    (∀ (s : String) (q : ℚ), amountNum s = some q →
        (saveEditExpense s).remoteCalled = true ∧
        (saveEditExpense s).savedAmount = some (round2 q)) ∧
    (∀ s : String, amountNum s = none →
        (saveEditExpense s).remoteCalled = false ∧
        (saveEditExpense s).savedAmount = none) ∧
    (saveEditExpense "0").remoteCalled = true ∧
    (saveEditExpense "0").savedAmount = some 0 ∧
    (saveEditExpense "-5").remoteCalled = true ∧
    (saveEditExpense "-5").savedAmount = some (-5 : ℚ) ∧
    isAmountValid "0" = false ∧
    isAmountValid "-5" = false := by
  refine ⟨?_, ?_, ?_, ?_, ?_, ?_, isAmountValid_zero_eval,
    isAmountValid_negfive_eval⟩
  · intro s q h
    simp [saveEditExpense, h]
  · intro s h
    simp [saveEditExpense, h]
  · simp [saveEditExpense, amountNum_zero_eval]
  · simp [saveEditExpense, amountNum_zero_eval, round2_zero_eval]
  · simp [saveEditExpense, amountNum_negfive_eval]
  · simp [saveEditExpense, amountNum_negfive_eval, round2_negfive_eval]

/-- C10 witness: the general part of the edit theorem applied to the
    concrete amount "0", whose parse succeeds with value 0. -/
theorem expense_edit_amount_no_positivity_gate_witness :
    (saveEditExpense "0").remoteCalled = true ∧
    (saveEditExpense "0").savedAmount = some (round2 0) :=
  expense_edit_amount_no_positivity_gate.1 "0" 0 amountNum_zero_eval

/-- C3: the attachment record is inserted only after the storage upload
    returned 200 or 201 (both 2xx); a failed upload inserts no record; and
    the record-implies-object invariant is preserved, both by the single
    task-media upload and by the expense-media upload loop. -/
theorem record_inserted_only_after_upload
    (w : MediaWorld) (tid : Nat) (path : String) (st : Nat) (insOk : Bool)
    (photos : List (String × Nat × Bool)) (eid : Nat)
    (hInv : ∀ r ∈ w.records, r.storage_path ∈ w.storage) :
    (∀ r ∈ (processAndUpload w tid path st insOk).1.records,
        r.storage_path ∈ (processAndUpload w tid path st insOk).1.storage) ∧
    (uploadOk st = false →
        (processAndUpload w tid path st insOk).1.records = w.records) ∧
    (uploadOk st = true → 200 ≤ st ∧ st < 300) ∧
    (∀ r ∈ (uploadPhotosLoop eid w photos).1.records,
        r.storage_path ∈ (uploadPhotosLoop eid w photos).1.storage) := by
  refine ⟨?_, ?_, ?_, uploadPhotosLoop_record_inv eid photos w hInv⟩
  · by_cases hst : uploadOk st = false
    · rw [show processAndUpload w tid path st insOk
          = (w, [⟨"error", "Yükleme hatası", "Durum: " ++ toString st⟩]) from by
        unfold processAndUpload
        rw [if_pos hst]]
      exact hInv
    · cases insOk with
      | true =>
          rw [show processAndUpload w tid path st true
              = ({ storage := w.storage ++ [path]
                   records := w.records ++ [⟨tid, path⟩] },
                 [⟨"success", "Yüklendi", "Fotoğraf eklendi."⟩]) from by
            unfold processAndUpload
            rw [if_neg hst, if_pos rfl]]
          intro r hr
          rcases List.mem_append.mp hr with hr2 | hr2
          · exact List.mem_append_left _ (hInv r hr2)
          · simp only [List.mem_singleton] at hr2
            subst hr2
            exact List.mem_append_right _ (by simp)
      | false =>
          rw [show processAndUpload w tid path st false
              = ({ w with storage := w.storage ++ [path] },
                 [⟨"error", "Kayıt hatası", "insert failed"⟩]) from by
            unfold processAndUpload
            rw [if_neg hst, if_neg (by decide)]]
          intro r hr
          exact List.mem_append_left _ (hInv r hr)
  · intro hst
    rw [show processAndUpload w tid path st insOk
        = (w, [⟨"error", "Yükleme hatası", "Durum: " ++ toString st⟩]) from by
      unfold processAndUpload
      rw [if_pos hst]]
  · intro hst
    have h : st = 200 ∨ st = 201 := by simpa [uploadOk] using hst
    rcases h with rfl | rfl <;> omega

/-- C3 witness: the upload theorem at a concrete empty world, a 201 upload
    with a successful insert, and a one-photo expense loop. -/
theorem record_inserted_only_after_upload_witness :
    (∀ r ∈ (processAndUpload ⟨[], []⟩ 7 "u1/7/a.jpg" 201 true).1.records,
        r.storage_path
          ∈ (processAndUpload ⟨[], []⟩ 7 "u1/7/a.jpg" 201 true).1.storage) ∧
    (uploadOk 201 = false →
        (processAndUpload ⟨[], []⟩ 7 "u1/7/a.jpg" 201 true).1.records
          = (⟨[], []⟩ : MediaWorld).records) ∧
    (uploadOk 201 = true → 200 ≤ 201 ∧ 201 < 300) ∧
    (∀ r ∈ (uploadPhotosLoop 9 ⟨[], []⟩ [("u1/9/b.jpg", 200, true)]).1.records,
        r.storage_path
          ∈ (uploadPhotosLoop 9 ⟨[], []⟩ [("u1/9/b.jpg", 200, true)]).1.storage) :=
  record_inserted_only_after_upload ⟨[], []⟩ 7 "u1/7/a.jpg" 201 true
    [("u1/9/b.jpg", 200, true)] 9 (by simp)

/-- C4 counterexample: there is no signed-URL cache: resolving the same
    attachment row twice in immediate succession (well within the 3600
    window) issues two storage sign calls, not one. -/
theorem signed_url_second_resolution_calls_storage :
    (makeSigned signSample [rowA]).2 = [("u1/7/1700000000000.jpg", 3600)] ∧
    ((makeSigned signSample [rowA]).2
        ++ (makeSigned signSample [rowA]).2).length = 2 ∧
    ¬ ((makeSigned signSample [rowA]).2
        ++ (makeSigned signSample [rowA]).2).length = 1 := by
  refine ⟨by decide, by decide, by decide⟩

/-- C4 amended: `makeSigned` memoizes nothing: every invocation issues
    exactly one `createSignedUrl(path, 3600)` call per row, so every load
    of the media list re-signs every attachment and a second resolution of
    the same attachment repeats the storage call instead of reusing a
    cached (url, expiry) entry. -/
theorem makeSigned_resigns_every_row (sign : String → Option String)
    (rows : List MediaRow) :
    (makeSigned sign rows).2 = rows.map (fun r => (r.storage_path, 3600)) ∧
    (makeSigned sign rows).1
      = rows.map (fun r => { r with signedUrl := sign r.storage_path }) := by
  induction rows with
  | nil => exact ⟨rfl, rfl⟩
  | cons r rest ih =>
      simp only [makeSigned, List.map_cons]
      exact ⟨by rw [ih.1], by rw [ih.2]⟩

/-- C5: `deleteMedia` always calls the storage remove with exactly the
    recorded storage path of the row; the optimistic removal leaves no row
    with the deleted id in the list; the record delete is issued only when
    the storage delete succeeded; and on storage failure the row is
    restored (the list is a permutation of the original), the failure is
    surfaced and no record delete is issued. -/
theorem deleteMedia_storage_delete_first
    (media : List MediaRow) (row : MediaRow) (storageOk : Bool)
    (sMsg : String) (recordOk : Bool) (dMsg : String)
    (reload : List MediaRow)
    (hmem : row ∈ media) (hnd : (media.map (fun m => m.id)).Nodup) :
    (deleteMedia media row storageOk sMsg recordOk dMsg reload).storageCalls
      = [[row.storage_path]] ∧
    (∀ m ∈ (deleteMedia media row storageOk sMsg recordOk dMsg reload).removed,
        m.id ≠ row.id) ∧
    ((deleteMedia media row storageOk sMsg recordOk dMsg reload).recordDeleteCalls
        ≠ [] → storageOk = true) ∧
    (storageOk = false →
        List.Perm
          (deleteMedia media row storageOk sMsg recordOk dMsg reload).media
          media ∧
        (deleteMedia media row storageOk sMsg recordOk dMsg
            reload).recordDeleteCalls = [] ∧
        (deleteMedia media row storageOk sMsg recordOk dMsg reload).toasts
          = [⟨"error", "Silme hatası", sMsg⟩]) ∧
    (storageOk = true →
        (deleteMedia media row storageOk sMsg recordOk dMsg
            reload).recordDeleteCalls = [row.id]) := by
  have hremoved : ∀ m ∈ media.filter (fun m => m.id != row.id),
      m.id ≠ row.id := by
    intro m hm
    have h := (List.mem_filter.mp hm).2
    simpa using h
  cases storageOk with
  | false =>
      exact ⟨rfl, hremoved, fun h => absurd rfl h,
        fun _ => ⟨cons_filter_ne_perm row media hmem hnd, rfl, rfl⟩,
        fun h => Bool.noConfusion h⟩
  | true =>
      cases recordOk with
      | false =>
          exact ⟨rfl, hremoved, fun _ => rfl, fun h => Bool.noConfusion h,
            fun _ => rfl⟩
      | true =>
          exact ⟨rfl, hremoved, fun _ => rfl, fun h => Bool.noConfusion h,
            fun _ => rfl⟩

/-- C5 witness: the deletion theorem at a concrete one-row list with a
    failing storage delete: the row is restored, the failure surfaced and
    no record delete issued. -/
theorem deleteMedia_storage_delete_first_witness :
    List.Perm
      (deleteMedia [rowA] rowA false "network error" true "" []).media
      [rowA] ∧
    (deleteMedia [rowA] rowA false "network error" true "" []).recordDeleteCalls
      = [] ∧
    (deleteMedia [rowA] rowA false "network error" true "" []).toasts
      = [⟨"error", "Silme hatası", "network error"⟩] :=
  (deleteMedia_storage_delete_first [rowA] rowA false "network error" true ""
    [] (by simp) (by simp)).2.2.2.1 rfl

/-- C6 counterexample: when the storage delete succeeds and the record
    delete then fails, the code re-fetches the list via `loadMedia`; the
    stale record is still in the table, so the deleted attachment
    reappears in the in-memory list — the optimistic removal is not kept. -/
theorem deleted_attachment_reappears :
    (deleteMedia [rowA] rowA true "" false "db error" [rowARefetched]).media
      = [rowARefetched] ∧
    rowARefetched.id = rowA.id ∧
    rowA.id ∈ ((deleteMedia [rowA] rowA true "" false "db error"
        [rowARefetched]).media.map (fun m => m.id)) := by
  refine ⟨by decide, by decide, by decide⟩

/-- C6 amended: when the storage delete succeeds and the record delete
    fails, the failure is surfaced and the in-memory list is replaced by
    the result of re-fetching the table — which still holds the stale
    record, so the attachment is re-displayed; no storage re-insert
    happens (the only storage call remains the remove). -/
theorem record_delete_failure_reloads (media reload : List MediaRow)
    (row : MediaRow) (sMsg dMsg : String) :
    (deleteMedia media row true sMsg false dMsg reload).media = reload ∧
    (deleteMedia media row true sMsg false dMsg reload).recordDeleteCalls
      = [row.id] ∧
    (deleteMedia media row true sMsg false dMsg reload).storageCalls
      = [[row.storage_path]] ∧
    (deleteMedia media row true sMsg false dMsg reload).toasts
      = [⟨"error", "Kayıt silinemedi", dMsg⟩] :=
  ⟨rfl, rfl, rfl, rfl⟩

/-- C7 counterexample: the transform clamps the width, not the longer
    edge: a portrait 2000×3000 source resizes to 1600×2400, whose longer
    edge 2400 exceeds 1600. -/
theorem resize_portrait_exceeds_clamp :
    resizeDims 2000 3000 = (1600, 2400) ∧
    longerEdge (resizeDims 2000 3000) = 2400 ∧
    ¬ longerEdge (resizeDims 2000 3000) ≤ 1600 := by
  refine ⟨by decide, by decide, by decide⟩

/-- C7 amended: the transform clamps the width to at most 1600 pixels with
    the height scaled proportionally (so the spec's landscape example
    3000×2000 does become width 1600, but a portrait source's longer edge
    may exceed 1600), and re-encodes at the fixed quality factor 0.8. -/
theorem resize_clamps_width_only :
    (∀ w h : Nat, (resizeDims w h).1 ≤ 1600) ∧
    resizeDims 3000 2000 = (1600, 1066) ∧
    resizeDims 2000 3000 = (1600, 2400) ∧
    manipCompress = 8 / 10 :=
  ⟨fun w _ => min_le_right w 1600, by decide, by decide, rfl⟩

/-- C8 counterexample: the task-media filename is built from the timestamp
    alone, so two distinct uploads by the same user for the same task in
    the same millisecond — differing only in their random draw, which the
    code never uses — derive exactly the same storage path. -/
theorem task_upload_path_collision :
    (⟨1000, "k3j9qa"⟩ : UploadEvent) ≠ (⟨1000, "z8w2mp"⟩ : UploadEvent) ∧
    taskPathOfEvent "u1" 7 ⟨1000, "k3j9qa"⟩
      = taskPathOfEvent "u1" 7 ⟨1000, "z8w2mp"⟩ ∧
    taskPathOfEvent "u1" 7 ⟨1000, "k3j9qa"⟩ = "u1/7/1000.jpg" := by
  refine ⟨by decide, rfl, by decide⟩

/-- C8 amended: both derivations have the deterministic prefix
    `{uploaderId}/{ownerEntityId}/`; the expense-media suffix is timestamp
    plus random token, so two same-millisecond expense uploads with
    distinct tokens never collide; the task-media suffix is the timestamp
    alone, so two same-millisecond task uploads always collide. -/
theorem storage_path_prefix_and_suffix :
    (∀ (uid : String) (tid n : Nat),
        taskStoragePath uid tid n
          = (uid ++ "/" ++ toString tid ++ "/") ++ taskFilename n) ∧
    (∀ (uid : String) (eid n : Nat) (tok : String),
        expenseStoragePath uid eid n tok
          = (uid ++ "/" ++ toString eid ++ "/") ++ expenseFilename n tok) ∧
    (∀ (uid : String) (eid n : Nat) (t1 t2 : String), t1 ≠ t2 →
        expenseStoragePath uid eid n t1 ≠ expenseStoragePath uid eid n t2) ∧
    (∀ (uid : String) (tid : Nat) (e1 e2 : UploadEvent), e1.now = e2.now →
        taskPathOfEvent uid tid e1 = taskPathOfEvent uid tid e2) := by
  refine ⟨fun uid tid n => rfl, fun uid eid n tok => rfl, ?_, ?_⟩
  · intro uid eid n t1 t2 hne heq
    apply hne
    have hdata := congrArg String.data heq
    simp only [expenseStoragePath, expenseFilename, String.data_append,
      List.append_assoc] at hdata
    have h1 := List.append_cancel_left hdata
    have h2 := List.append_cancel_left h1
    have h3 := List.append_cancel_left h2
    have h4 := List.append_cancel_left h3
    have h5 := List.append_cancel_left h4
    have h6 := List.append_cancel_left h5
    have h7 : t1.data = t2.data := List.append_cancel_right h6
    cases t1
    cases t2
    exact congrArg String.mk h7
  · intro uid tid e1 e2 hnow
    simp only [taskPathOfEvent, hnow]

/-- C8 amended, witness: two same-millisecond expense uploads with
    distinct random tokens derive distinct storage paths. -/
theorem storage_path_prefix_and_suffix_witness :
    expenseStoragePath "u1" 7 1000 "k3j9qa"
      ≠ expenseStoragePath "u1" 7 1000 "z8w2mp" :=
  storage_path_prefix_and_suffix.2.2.1 "u1" 7 1000 "k3j9qa" "z8w2mp"
    (by decide)

end IlkApp
